import Mathlib

/-!
Verification of the STEGO evaluation/plotting repository.

The repository has two Python source files:
* `src/plot_pr_curves.py` — the `LitRecalibrator` evaluation harness
  (min-max normalization `prep_fd`, the CRF pairwise potential `CRFModule`,
  the correlation step `get_net_fd`, the aggregation / plotting code
  `validation_step` / `validation_epoch_end`, the confusion-matrix
  normalization in `plot_cm`).
* `emelops_scripts/create-dataset.py` — a deterministic dataset splitter.

Tensors are shallowly embedded: a flattened torch tensor is a `List ℚ`
(exact arithmetic, the standard abstraction of its float values); where the
verified property is specifically about IEEE non-finite values, a second
model `FloatVal` (a rational or a non-finite value) is used.  Indexed
tensors are functions out of `Fin n`.  Real-valued formulas (exp, sqrt)
use `ℝ`.
-/

namespace STEGO

/-! ## Definitions -/

/-! ### Flattened-tensor model over ℚ: reduction min / max -/

/-- The minimum of a flattened tensor's values, as computed by
`Tensor.min()` (a fold of binary `min` over all elements; the `[]` case is
unreachable in the source, which never reduces an empty tensor). -/
def listMin : List ℚ → ℚ
  | [] => 0
  | x :: xs => xs.foldl min x

/-- The maximum of a flattened tensor's values (`Tensor.max()`). -/
def listMax : List ℚ → ℚ
  | [] => 0
  | x :: xs => xs.foldl max x

/-- `prep_fd` (plot_pr_curves.py lines 43–46) as a value-level function:
subtract the tensor's minimum, then divide by the maximum of the result;
`reshape(-1)` is the identity on the flattened value list.  (The source
performs these with in-place tensor ops; the store-level behaviour is
modelled separately by `prep_fd_state`.) -/
def prep_fd (fd : List ℚ) : List ℚ :=
  let fd1 := fd.map (fun x => x - listMin fd)
  fd1.map (fun x => x / listMax fd1)

/-- The normalized predictions computed at the start of `plot_pr`
(plot_pr_curves.py lines 219–221): flatten, subtract the minimum, divide by
the resulting maximum — the same min-max normalization as `prep_fd`. -/
def plotPrPreds (preds : List ℚ) : List ℚ :=
  let p1 := preds.map (fun x => x - listMin preds)
  p1.map (fun x => x / listMax p1)

/-- Store-level `prep_fd` (lines 43–46): `fd -= fd.min()` and
`fd /= fd.max()` are in-place torch ops that mutate the argument tensor's
storage, and `fd.reshape(-1)` returns a view of that same storage.  The
result is `(returned value, content of the argument's storage after the
call)`; both are the normalized values. -/
def prep_fd_state (fd : List ℚ) : List ℚ × List ℚ :=
  let fd1 := fd.map (fun x => x - listMin fd)
  let fd2 := fd1.map (fun x => x / listMax fd1)
  (fd2, fd2)

/-! ### IEEE-aware model for the degenerate-normalization path -/

/-- A float value for the degenerate-normalization analysis: either a
finite value (exact, as a rational) or a non-finite value (NaN or ±Inf —
collapsed, since on the paths exercised here only NaN arises: the zero
numerators of `prep_fd`'s division make `x / 0` exactly `0 / 0 = NaN`). -/
inductive FloatVal where
  | fin : ℚ → FloatVal
  | nonfin : FloatVal
deriving DecidableEq

namespace FloatVal

/-- Elementwise float subtraction: any non-finite operand propagates. -/
def sub : FloatVal → FloatVal → FloatVal
  | fin a, fin b => fin (a - b)
  | _, _ => nonfin

/-- Elementwise float division: division by zero is non-finite (NaN for a
zero numerator, the only case reached by `prep_fd`), and a non-finite
operand propagates. -/
def div : FloatVal → FloatVal → FloatVal
  | fin a, fin b => if b = 0 then nonfin else fin (a / b)
  | _, _ => nonfin

/-- Binary minimum as used by the `Tensor.min()` reduction: NaN propagates
through torch reductions. -/
def fmin : FloatVal → FloatVal → FloatVal
  | fin a, fin b => fin (min a b)
  | _, _ => nonfin

/-- Binary maximum as used by the `Tensor.max()` reduction. -/
def fmax : FloatVal → FloatVal → FloatVal
  | fin a, fin b => fin (max a b)
  | _, _ => nonfin

end FloatVal

/-- `Tensor.min()` over the float model. -/
def listFMin : List FloatVal → FloatVal
  | [] => .nonfin
  | x :: xs => xs.foldl FloatVal.fmin x

/-- `Tensor.max()` over the float model. -/
def listFMax : List FloatVal → FloatVal
  | [] => .nonfin
  | x :: xs => xs.foldl FloatVal.fmax x

/-- `prep_fd` (lines 43–46) over the float model: subtract the minimum,
divide by the maximum of the result.  There is no branch on the divisor —
a zero range flows straight into the division. -/
def prep_fdF (fd : List FloatVal) : List FloatVal :=
  let fd1 := fd.map (fun x => x.sub (listFMin fd))
  fd1.map (fun x => x.div (listFMax fd1))

/-- The normalization repeated at the start of `plot_pr` (lines 219–221)
over the float model: these are the prediction values handed to
`precision_recall_curve` / `average_precision_score`; again no branch
detects or masks non-finite values. -/
def plotPrPredsF (preds : List FloatVal) : List FloatVal :=
  let p1 := preds.map (fun x => x.sub (listFMin preds))
  p1.map (fun x => x.div (listFMax p1))

/-! ### `CRFModule` (plot_pr_curves.py lines 62–81) -/

/-- The six scalar parameters of `CRFModule` (lines 65–70). -/
structure CRFModule where
  w1 : ℝ
  w2 : ℝ
  shift : ℝ
  alpha : ℝ
  beta : ℝ
  gamma : ℝ

/-- A freshly constructed `CRFModule` (`__init__`, lines 63–70):
w1=10, w2=3, shift=-0.3, alpha=0.5, beta=0.15, gamma=0.05. -/
def CRFModule.init : CRFModule :=
  ⟨10, 3, -0.3, 0.5, 0.15, 0.05⟩

/-- `CRFModule.forward` (lines 72–81).  Tensors of one common shape are
functions out of an index type ι; all torch ops in the body are
elementwise over that shape, with the scalar parameters broadcast. -/
noncomputable def CRFModule.forward (self : CRFModule)
    (coord_diff img_diff : ι → ℝ) : ι → ℝ :=
  fun i =>
    |self.w1| *
        Real.exp (-coord_diff i / (2 * Real.exp self.alpha)
          - img_diff i / (2 * Real.exp self.beta))
      + |self.w2| * Real.exp (-coord_diff i / (2 * Real.exp self.gamma))
      - self.shift

/-! ### `get_net_fd` (plot_pr_curves.py lines 147–168) -/

/-- Pairwise dot product of two sampled vectors (channel dimension c). -/
def dot {c : ℕ} (a b : Fin c → ℝ) : ℝ := ∑ i, a i * b i

/-- The L2 norm of a sampled vector. -/
noncomputable def l2norm {c : ℕ} (v : Fin c → ℝ) : ℝ :=
  Real.sqrt (∑ i, v i ^ 2)

/-- Modelled from the spec: `norm` is imported from `modules.py`, which is
not under src/; per spec §4.3 the sampled feature vectors are "normalized
per-vector (unit L2 norm)" before correlation.  Division of the vector by
its L2 norm. -/
noncomputable def norm {c : ℕ} (v : Fin c → ℝ) : Fin c → ℝ :=
  fun i => v i / l2norm v

/-- Modelled from the spec: `tensor_correlation` is imported from
`modules.py`, which is not under src/; per spec §4.3 it computes "the full
pairwise dot-product tensor" of two sampled vector sets.  (The reshape to
(n, h1, w1, h2, w2) is the identity on the pair-indexed values.) -/
def tensor_correlation {k1 k2 c : ℕ}
    (A : Fin k1 → (Fin c → ℝ)) (B : Fin k2 → (Fin c → ℝ)) :
    Fin k1 → Fin k2 → ℝ :=
  fun i j => dot (A i) (B j)

/-- `get_net_fd` (lines 147–168) after the sampling stage: the inputs are
the sampled feature vector sets `feat_samples1/2` (produced by
`modules.sample`, not under src/) and the sampled one-hot label vector
sets `label_samples1/2` (lines 149–163).  As in the source (lines
165–168): `fd = tensor_correlation(norm(feat_samples1),
norm(feat_samples2))`, `ld = tensor_correlation(label_samples1,
label_samples2)`, returned as `(ld, fd)`; the two trailing argmax outputs
of the source are omitted (they are discarded by every caller). -/
noncomputable def get_net_fd {k1 k2 c cl : ℕ}
    (featS1 : Fin k1 → (Fin c → ℝ)) (featS2 : Fin k2 → (Fin c → ℝ))
    (labS1 : Fin k1 → (Fin cl → ℝ)) (labS2 : Fin k2 → (Fin cl → ℝ)) :
    (Fin k1 → Fin k2 → ℝ) × (Fin k1 → Fin k2 → ℝ) :=
  (tensor_correlation labS1 labS2,
    tensor_correlation (fun i => norm (featS1 i)) (fun j => norm (featS2 j)))

/-! ### `plot_cm` confusion-matrix normalization (lines 229–235) -/

/-- Per-column sums of the count histogram: `hist.sum(dim=0, keepdim=True)`
sums over the first index. -/
def colSum {n : ℕ} (hist : Fin n → Fin n → ℕ) (j : Fin n) : ℕ :=
  ∑ i, hist i j

/-- The normalized confusion matrix of `plot_cm` (lines 233–234): the
integer count histogram is cast to float and divided by
`torch.clamp_min(hist.sum(dim=0, keepdim=True), 1)`, i.e. by the
per-column sums clamped below at 1. -/
def normalizedCM {n : ℕ} (hist : Fin n → Fin n → ℕ) (i j : Fin n) : ℚ :=
  (hist i j : ℚ) / max ((colSum hist j : ℚ)) 1

/-! ### `create-dataset.py` -/

/-- Insertion of a string into a sorted list (helper for `sortStrings`). -/
def insertSorted (s : String) : List String → List String
  | [] => [s]
  | x :: xs => if s ≤ x then s :: x :: xs else x :: insertSorted s xs

/-- `sorted(...)` on the globbed file listing (create-dataset.py
line 19), modelled as insertion sort over the string order. -/
def sortStrings (l : List String) : List String :=
  l.foldr insertSorted []

/-- The constants of create-dataset.py lines 9–13. -/
def dataset_size : ℕ := 30000

/-- `train_percent = 50` (line 11). -/
def train_percent : ℕ := 50

/-- `val_percent = 25` (line 12). -/
def val_percent : ℕ := 25

/-- `test_percent = 25` (line 13). -/
def test_percent : ℕ := 25

/-- `train_start = 0` (line 34). -/
def train_start : ℕ := 0

/-- `train_end = int(train_percent / 100 * dataset_size)` (line 35);
Python `int()` truncates, which is the floor on these non-negative
values. -/
def train_end : ℕ := (((train_percent : ℚ) / 100 * dataset_size).floor).toNat

/-- `val_end = int(val_percent / 100 * dataset_size + val_start)`
(lines 37–38), with `val_start = train_end`. -/
def val_end : ℕ :=
  (((val_percent : ℚ) / 100 * dataset_size + train_end).floor).toNat

/-- `test_end = int(test_percent / 100 * dataset_size + test_start)`
(lines 40–41), with `test_start = val_end`. -/
def test_end : ℕ :=
  (((test_percent : ℚ) / 100 * dataset_size + val_end).floor).toNat

/-- The deterministic primitives the splitting script calls into, fixed by
the machine environment: `timestamp` is the value of
`datetime(2022, 12, 18, 18).timestamp()` (a constant of the environment,
line 15); `shuffle` is `Random(seed).shuffle` (Python's seeded PRNG — a
deterministic pure function of the seed and the list, stdlib, external to
the repository); `sha256hex` is `sha256(...).hexdigest()` on a file stem;
`stem` and `fileName` are `Path(...).stem` / `Path(...).name`. -/
structure SplitEnv where
  timestamp : ℚ
  shuffle : ℚ → List String → List String
  sha256hex : String → String
  stem : String → String
  fileName : String → String

/-- A Python slice `l[a:b]` on a file list. -/
def slice (l : List String) (a b : ℕ) : List String :=
  (l.drop a).take (b - a)

/-- The hash-prefixed link name created for a file (lines 48–49, 54–55,
60–61): `sha256(stem).hexdigest() + "-" + name`. -/
def linkName (env : SplitEnv) (f : String) : String :=
  env.sha256hex (env.stem f) ++ "-" ++ env.fileName f

/-- One run of create-dataset.py on a globbed listing of matching image
files: sort the listing (line 19), shuffle it with the generator seeded by
the fixed date's timestamp (lines 15–16, 20), slice into train/val/test
(lines 34–45), and link each file under its hash-prefixed name (lines
47–63).  The run's observable assignment is the three lists of link
names. -/
def createDatasetRun (env : SplitEnv) (globFiles : List String) :
    List String × List String × List String :=
  let dataset_files := env.shuffle env.timestamp (sortStrings globFiles)
  let train_files := slice dataset_files train_start train_end
  let val_files := slice dataset_files train_end val_end
  let test_files := slice dataset_files val_end test_end
  (train_files.map (linkName env),
    val_files.map (linkName env),
    test_files.map (linkName env))

/-! ### `LitRecalibrator` validation step and epoch end -/

/-- A validation batch (`batch["img"]`, `batch["label"]`), with tensors
abstracted by a type `T`. -/
structure Batch (T : Type) where
  img : T
  label : T

/-- The mapping returned by `validation_step` (lines 202–208): exactly the
five named entries. -/
structure ValOutput (T : Type) where
  dino_fd : T
  stego_fd : T
  moco_fd : T
  crf_fd : T
  ld : T

/-- The attribute state of a `LitRecalibrator` relevant to
`validation_step`: `__init__` (lines 85–119) stores `cfg`, `n_classes`,
`moco`, `cm_metrics`, `automatic_optimization` and `label_cmap`, but the
assignments of `self.dino` (lines 110–111) and `self.crf` (line 112) are
commented out, so those attributes may be absent (`none`). -/
structure LitRecalibrator (T : Type) where
  n_classes : ℕ
  moco : T → T × T
  dino : Option (T → T × T)
  crf : Option CRFModule

/-- `LitRecalibrator.__init__` (lines 85–119): sets `moco` (lines
96–109); the `self.dino` and `self.crf` assignments (lines 110–112) are
commented out, leaving both attributes unset. -/
def LitRecalibrator.initState {T : Type} (n_classes : ℕ) (moco : T → T × T) :
    LitRecalibrator T :=
  ⟨n_classes, moco, none, none⟩

/-- `validation_step` (lines 173–208).  Attribute lookups on `self` that
`__init__` never assigned raise `AttributeError`, modelled as `Except`
errors, in source order: `self.dino(img)` (line 178) is evaluated first,
then `self.moco(img)` (line 179), then `get_crf_fd` reads `self.crf`
(line 145).  The random coordinate draws (lines 187–188) are passed in as
inputs `coords1`, `coords2`; the sampling/correlation pipelines
(`get_crf_fd` given the crf parameters, and `get_net_fd`, both built on
`modules.sample` which is not under src/) are passed in as the functions
`getCrfFd` and `netFd` (arguments in source order).  On success the
returned mapping has exactly the five entries of lines 202–208, with `ld`
taken from the last `get_net_fd` call (lines 198–200). -/
def LitRecalibrator.validationStep {T C : Type} (self : LitRecalibrator T)
    (batch : Batch T) (coords1 coords2 : C)
    (getCrfFd : CRFModule → T → C → C → T)
    (netFd : T → T → T → T → C → C → T × T) :
    Except String (ValOutput T) :=
  match self.dino with
  | none => .error "AttributeError: dino"
  | some dino =>
    let dino_out := dino batch.img
    let dino_feats := dino_out.1
    let dino_code := dino_out.2
    let moco_out := self.moco batch.img
    let moco_feats := moco_out.1
    match self.crf with
    | none => .error "AttributeError: crf"
    | some crfParams =>
      let crf_fd := getCrfFd crfParams batch.img coords1 coords2
      let stego_out :=
        netFd dino_code dino_code batch.label batch.label coords1 coords2
      let dino_fd_out :=
        netFd dino_feats dino_feats batch.label batch.label coords1 coords2
      let moco_fd_out :=
        netFd moco_feats moco_feats batch.label batch.label coords1 coords2
      .ok ⟨dino_fd_out.2, stego_out.2, moco_fd_out.2, crf_fd, moco_fd_out.1⟩

/-- The plotting phase of `validation_epoch_end` (lines 271–275): the four
accumulated correlation buffers in `all_outputs` are each passed through
`prep_fd`, whose in-place ops rewrite the buffer's storage (modelled by
`prep_fd_state`); `ld` is not passed through `prep_fd`, and `plot_pr`
operates on a CPU copy of its inputs (`preds.cpu()`,
`targets.to(torch.int64)` — the trainer is configured with `gpus=1`, line
360, so the accumulated tensors live on the GPU and `.cpu()` copies),
leaving the accumulation buffers exactly as `prep_fd` left them. -/
def plotPhase (all_outputs : ValOutput (List ℚ)) : ValOutput (List ℚ) :=
  ⟨(prep_fd_state all_outputs.dino_fd).2,
    (prep_fd_state all_outputs.stego_fd).2,
    (prep_fd_state all_outputs.moco_fd).2,
    (prep_fd_state all_outputs.crf_fd).2,
    all_outputs.ld⟩

/-! ## Helper lemmas -/

theorem foldl_min_le_init : ∀ (xs : List ℚ) (x : ℚ), xs.foldl min x ≤ x := by
  intro xs
  induction xs with
  | nil => intro x; exact le_refl x
  | cons a xs ih =>
    intro x
    exact (ih (min x a)).trans (min_le_left x a)

theorem foldl_min_le_mem : ∀ (xs : List ℚ) (x a : ℚ), a ∈ xs → xs.foldl min x ≤ a := by
  intro xs
  induction xs with
  | nil => intro x a ha; cases ha
  | cons b xs ih =>
    intro x a ha
    rcases List.mem_cons.mp ha with h | h
    · subst h
      exact (foldl_min_le_init xs (min x a)).trans (min_le_right x a)
    · exact ih (min x b) a h

theorem le_foldl_max_init : ∀ (xs : List ℚ) (x : ℚ), x ≤ xs.foldl max x := by
  intro xs
  induction xs with
  | nil => intro x; exact le_refl x
  | cons a xs ih =>
    intro x
    exact (le_max_left x a).trans (ih (max x a))

theorem mem_le_foldl_max : ∀ (xs : List ℚ) (x a : ℚ), a ∈ xs → a ≤ xs.foldl max x := by
  intro xs
  induction xs with
  | nil => intro x a ha; cases ha
  | cons b xs ih =>
    intro x a ha
    rcases List.mem_cons.mp ha with h | h
    · subst h
      exact (le_max_right x a).trans (le_foldl_max_init xs (max x a))
    · exact ih (max x b) a h

theorem listMin_le_mem (l : List ℚ) (a : ℚ) (h : a ∈ l) : listMin l ≤ a := by
  cases l with
  | nil => cases h
  | cons x xs =>
    rcases List.mem_cons.mp h with h1 | h1
    · subst h1; exact foldl_min_le_init xs a
    · exact foldl_min_le_mem xs x a h1

theorem mem_le_listMax (l : List ℚ) (a : ℚ) (h : a ∈ l) : a ≤ listMax l := by
  cases l with
  | nil => cases h
  | cons x xs =>
    rcases List.mem_cons.mp h with h1 | h1
    · subst h1; exact le_foldl_max_init xs a
    · exact mem_le_foldl_max xs x a h1

theorem foldl_min_map (f : ℚ → ℚ) (hf : Monotone f) :
    ∀ (xs : List ℚ) (x : ℚ), (xs.map f).foldl min (f x) = f (xs.foldl min x) := by
  intro xs
  induction xs with
  | nil => intro x; rfl
  | cons a xs ih =>
    intro x
    simp only [List.map_cons, List.foldl_cons]
    rw [← hf.map_min, ih]

theorem foldl_max_map (f : ℚ → ℚ) (hf : Monotone f) :
    ∀ (xs : List ℚ) (x : ℚ), (xs.map f).foldl max (f x) = f (xs.foldl max x) := by
  intro xs
  induction xs with
  | nil => intro x; rfl
  | cons a xs ih =>
    intro x
    simp only [List.map_cons, List.foldl_cons]
    rw [← hf.map_max, ih]

theorem listMin_map (f : ℚ → ℚ) (hf : Monotone f) (l : List ℚ) (h : l ≠ []) :
    listMin (l.map f) = f (listMin l) := by
  cases l with
  | nil => exact absurd rfl h
  | cons x xs => exact foldl_min_map f hf xs x

theorem listMax_map (f : ℚ → ℚ) (hf : Monotone f) (l : List ℚ) (h : l ≠ []) :
    listMax (l.map f) = f (listMax l) := by
  cases l with
  | nil => exact absurd rfl h
  | cons x xs => exact foldl_max_map f hf xs x

theorem listMin_lt_listMax (l : List ℚ)
    (hnc : ∃ a ∈ l, ∃ b ∈ l, a ≠ b) : listMin l < listMax l := by
  obtain ⟨a, ha, b, hb, hab⟩ := hnc
  rcases lt_or_gt_of_ne hab with h | h
  · exact lt_of_le_of_lt (listMin_le_mem l a ha) (lt_of_lt_of_le h (mem_le_listMax l b hb))
  · exact lt_of_le_of_lt (listMin_le_mem l b hb) (lt_of_lt_of_le h (mem_le_listMax l a ha))

theorem sub_monotone (m : ℚ) : Monotone (fun x : ℚ => x - m) :=
  fun _ _ hab => sub_le_sub_right hab m

theorem div_monotone (M : ℚ) (hM : 0 ≤ M) : Monotone (fun x : ℚ => x / M) := by
  intro a b hab
  simp only [div_eq_mul_inv]
  exact mul_le_mul_of_nonneg_right hab (inv_nonneg.mpr hM)

theorem mul_monotone (c : ℚ) (hc : 0 ≤ c) : Monotone (fun x : ℚ => c * x) :=
  fun _ _ hab => mul_le_mul_of_nonneg_left hab hc

theorem plotPrPreds_eq_prep_fd : plotPrPreds = prep_fd := rfl

theorem prep_fd_eq_map (l : List ℚ) (h : l ≠ []) :
    prep_fd l = l.map (fun x => (x - listMin l) / (listMax l - listMin l)) := by
  show (l.map (fun x => x - listMin l)).map
      (fun x => x / listMax (l.map (fun x => x - listMin l))) =
    l.map (fun x => (x - listMin l) / (listMax l - listMin l))
  rw [listMax_map _ (sub_monotone (listMin l)) l h, List.map_map]
  rfl

theorem minmax_monotone (l : List ℚ) (hlt : listMin l < listMax l) :
    Monotone (fun x : ℚ => (x - listMin l) / (listMax l - listMin l)) :=
  (div_monotone (listMax l - listMin l) (sub_pos.mpr hlt).le).comp
    (sub_monotone (listMin l))

theorem listMin_prep_fd (l : List ℚ) (hnc : ∃ a ∈ l, ∃ b ∈ l, a ≠ b) :
    listMin (prep_fd l) = 0 := by
  have hne : l ≠ [] := by
    obtain ⟨a, ha, _⟩ := hnc
    exact List.ne_nil_of_mem ha
  have hlt := listMin_lt_listMax l hnc
  rw [prep_fd_eq_map l hne, listMin_map _ (minmax_monotone l hlt) l hne]
  simp

theorem listMax_prep_fd (l : List ℚ) (hnc : ∃ a ∈ l, ∃ b ∈ l, a ≠ b) :
    listMax (prep_fd l) = 1 := by
  have hne : l ≠ [] := by
    obtain ⟨a, ha, _⟩ := hnc
    exact List.ne_nil_of_mem ha
  have hlt := listMin_lt_listMax l hnc
  rw [prep_fd_eq_map l hne, listMax_map _ (minmax_monotone l hlt) l hne]
  exact div_self (ne_of_gt (sub_pos.mpr hlt))

/-! ## Claim theorems -/

/-- C5: min-max normalization (subtract the minimum, then divide by the
resulting maximum, as implemented by `prep_fd` and repeated inside
`plot_pr`) is idempotent: for every tensor whose values are not all equal,
applying it twice yields the same values as applying it once. -/
theorem c5_minmax_normalization_idempotent (l : List ℚ)
    (hnc : ∃ a ∈ l, ∃ b ∈ l, a ≠ b) :
    prep_fd (prep_fd l) = prep_fd l := by
  have hne : l ≠ [] := by
    obtain ⟨a, ha, _⟩ := hnc
    exact List.ne_nil_of_mem ha
  have hne2 : prep_fd l ≠ [] := by
    rw [prep_fd_eq_map l hne]
    simp [hne]
  rw [prep_fd_eq_map (prep_fd l) hne2, listMin_prep_fd l hnc,
    listMax_prep_fd l hnc]
  have hid : (fun x : ℚ => (x - 0) / (1 - 0)) = id := by
    funext x
    simp
  rw [hid, List.map_id]

/-- Witness for C5 at the concrete tensor `[0, 2]`. -/
theorem c5_minmax_normalization_idempotent_witness :
    prep_fd (prep_fd [0, 2]) = prep_fd [0, 2] :=
  c5_minmax_normalization_idempotent [0, 2] (by decide)

/-- C6: the normalized predictions `plot_pr` derives from `c * x` (for any
`c > 0` and non-constant `x`) are elementwise equal to those it derives
from `x`; since `precision_recall_curve` and `average_precision_score`
are functions of the (targets, preds) pair, the resulting curve and
average-precision score are identical. -/
theorem c6_average_precision_scale_invariant (x : List ℚ) (c : ℚ)
    (hc : 0 < c) (hnc : ∃ a ∈ x, ∃ b ∈ x, a ≠ b) :
    plotPrPreds (x.map (fun v => c * v)) = plotPrPreds x ∧
      ∀ ap : List ℚ → ℚ,
        ap (plotPrPreds (x.map (fun v => c * v))) = ap (plotPrPreds x) := by
  have hne : x ≠ [] := by
    obtain ⟨a, ha, _⟩ := hnc
    exact List.ne_nil_of_mem ha
  have key : plotPrPreds (x.map (fun v => c * v)) = plotPrPreds x := by
    rw [plotPrPreds_eq_prep_fd]
    have hne2 : x.map (fun v => c * v) ≠ [] := by simp [hne]
    rw [prep_fd_eq_map _ hne2, prep_fd_eq_map x hne,
      listMin_map _ (mul_monotone c hc.le) x hne,
      listMax_map _ (mul_monotone c hc.le) x hne, List.map_map]
    have hfun :
        ((fun y => (y - c * listMin x) / (c * listMax x - c * listMin x)) ∘
            fun v => c * v) =
          fun v => (v - listMin x) / (listMax x - listMin x) := by
      funext v
      show (c * v - c * listMin x) / (c * listMax x - c * listMin x) = _
      rw [← mul_sub, ← mul_sub, mul_div_mul_left _ _ (ne_of_gt hc)]
    rw [hfun]
  exact ⟨key, fun ap => by rw [key]⟩

/-- Witness for C6 at the concrete signal `[0, 2]` and scale `2`. -/
theorem c6_average_precision_scale_invariant_witness :
    plotPrPreds (([0, 2] : List ℚ).map (fun v => 2 * v)) =
        plotPrPreds [0, 2] ∧
      ∀ ap : List ℚ → ℚ,
        ap (plotPrPreds (([0, 2] : List ℚ).map (fun v => 2 * v))) =
          ap (plotPrPreds [0, 2]) :=
  c6_average_precision_scale_invariant [0, 2] 2 (by norm_num) (by decide)

theorem fmin_self (v : FloatVal) : v.fmin v = v := by
  cases v with
  | fin q => simp [FloatVal.fmin]
  | nonfin => rfl

theorem fmax_self (v : FloatVal) : v.fmax v = v := by
  cases v with
  | fin q => simp [FloatVal.fmax]
  | nonfin => rfl

theorem foldl_fmin_replicate (n : ℕ) (v : FloatVal) :
    (List.replicate n v).foldl FloatVal.fmin v = v := by
  induction n with
  | zero => rfl
  | succ k ih => rw [List.replicate_succ, List.foldl_cons, fmin_self]; exact ih

theorem foldl_fmax_replicate (n : ℕ) (v : FloatVal) :
    (List.replicate n v).foldl FloatVal.fmax v = v := by
  induction n with
  | zero => rfl
  | succ k ih => rw [List.replicate_succ, List.foldl_cons, fmax_self]; exact ih

theorem listFMin_replicate (n : ℕ) (v : FloatVal) (hn : n ≠ 0) :
    listFMin (List.replicate n v) = v := by
  cases n with
  | zero => exact absurd rfl hn
  | succ k =>
    rw [List.replicate_succ]
    exact foldl_fmin_replicate k v

theorem listFMax_replicate (n : ℕ) (v : FloatVal) (hn : n ≠ 0) :
    listFMax (List.replicate n v) = v := by
  cases n with
  | zero => exact absurd rfl hn
  | succ k =>
    rw [List.replicate_succ]
    exact foldl_fmax_replicate k v

theorem plotPrPredsF_eq_prep_fdF : plotPrPredsF = prep_fdF := rfl

theorem prep_fdF_replicate_fin (n : ℕ) (hn : n ≠ 0) (q : ℚ) :
    prep_fdF (List.replicate n (FloatVal.fin q)) =
      List.replicate n FloatVal.nonfin := by
  show ((List.replicate n (FloatVal.fin q)).map
      (fun x => x.sub (listFMin (List.replicate n (FloatVal.fin q))))).map
      (fun x => x.div (listFMax ((List.replicate n (FloatVal.fin q)).map
        (fun x => x.sub (listFMin (List.replicate n (FloatVal.fin q))))))) =
    List.replicate n FloatVal.nonfin
  have h1 : listFMin (List.replicate n (FloatVal.fin q)) = FloatVal.fin q :=
    listFMin_replicate n _ hn
  have h2 : (FloatVal.fin q).sub (FloatVal.fin q) = FloatVal.fin 0 := by
    simp [FloatVal.sub]
  rw [h1, List.map_replicate, h2, listFMax_replicate n _ hn,
    List.map_replicate]
  have h3 : (FloatVal.fin 0).div (FloatVal.fin 0) = FloatVal.nonfin := by
    simp [FloatVal.div]
  rw [h3]

theorem prep_fdF_replicate_nonfin (n : ℕ) (hn : n ≠ 0) :
    prep_fdF (List.replicate n FloatVal.nonfin) =
      List.replicate n FloatVal.nonfin := by
  show ((List.replicate n FloatVal.nonfin).map
      (fun x => x.sub (listFMin (List.replicate n FloatVal.nonfin)))).map
      (fun x => x.div (listFMax ((List.replicate n FloatVal.nonfin).map
        (fun x => x.sub (listFMin (List.replicate n FloatVal.nonfin)))))) =
    List.replicate n FloatVal.nonfin
  rw [listFMin_replicate n _ hn, List.map_replicate]
  have h2 : FloatVal.nonfin.sub FloatVal.nonfin = FloatVal.nonfin := rfl
  rw [h2, listFMax_replicate n _ hn, List.map_replicate]
  rfl

/-- C7: a signal tensor whose values are all equal (zero range) makes the
min-max normalization produce non-finite values (NaN: the zero-subtracted
tensor is divided by its zero maximum with no guarding branch in
`prep_fd`), and these reach the precision-recall computation unchanged —
the normalization repeated inside `plot_pr` maps them to the same
non-finite values that are then handed to `precision_recall_curve`. -/
theorem c7_degenerate_normalization_nan (l : List FloatVal) (q : ℚ)
    (hne : l ≠ []) (hconst : ∀ x ∈ l, x = FloatVal.fin q) :
    (∀ y ∈ prep_fdF l, y = FloatVal.nonfin) ∧
      ∀ y ∈ plotPrPredsF (prep_fdF l), y = FloatVal.nonfin := by
  have hlen : l.length ≠ 0 := by
    simpa [List.length_eq_zero] using hne
  have hrep : l = List.replicate l.length (FloatVal.fin q) :=
    List.eq_replicate_iff.mpr ⟨rfl, hconst⟩
  have e1 : prep_fdF l = List.replicate l.length FloatVal.nonfin := by
    conv_lhs => rw [hrep]
    exact prep_fdF_replicate_fin l.length hlen q
  have e2 : plotPrPredsF (prep_fdF l) =
      List.replicate l.length FloatVal.nonfin := by
    rw [e1, plotPrPredsF_eq_prep_fdF]
    exact prep_fdF_replicate_nonfin l.length hlen
  constructor
  · rw [e1]
    intro y hy
    exact List.eq_of_mem_replicate hy
  · rw [e2]
    intro y hy
    exact List.eq_of_mem_replicate hy

/-- Witness for C7 at the constant tensor `[1, 1]`. -/
theorem c7_degenerate_normalization_nan_witness :
    (∀ y ∈ prep_fdF [FloatVal.fin 1, FloatVal.fin 1], y = FloatVal.nonfin) ∧
      ∀ y ∈ plotPrPredsF (prep_fdF [FloatVal.fin 1, FloatVal.fin 1]),
        y = FloatVal.nonfin :=
  c7_degenerate_normalization_nan [FloatVal.fin 1, FloatVal.fin 1] 1
    (by decide) (by decide)

/-- C2: `CRFModule.forward` returns elementwise exactly
`|w1| * exp(-coord_diff / (2*exp(alpha)) - img_diff / (2*exp(beta)))
 + |w2| * exp(-coord_diff / (2*exp(gamma))) - shift`. -/
theorem c2_crf_forward_formula {ι : Type} (p : CRFModule)
    (coord_diff img_diff : ι → ℝ) (i : ι) :
    CRFModule.forward p coord_diff img_diff i =
      |p.w1| *
          Real.exp (-coord_diff i / (2 * Real.exp p.alpha)
            - img_diff i / (2 * Real.exp p.beta))
        + |p.w2| * Real.exp (-coord_diff i / (2 * Real.exp p.gamma))
        - p.shift := rfl

/-- C3: a freshly constructed `CRFModule` (w1=10, w2=3, shift=-0.3,
alpha=0.5, beta=0.15, gamma=0.05) applied to coord_diff = img_diff = 0
yields 13.3 = `|10| + |3| - (-0.3)` at every element, for any tensor
shape. -/
theorem c3_crf_default_zero_input {ι : Type} (coord_diff img_diff : ι → ℝ)
    (h1 : ∀ i, coord_diff i = 0) (h2 : ∀ i, img_diff i = 0) (i : ι) :
    CRFModule.forward CRFModule.init coord_diff img_diff i = 13.3 := by
  have e1 : |(10 : ℝ)| = 10 := abs_of_pos (by norm_num)
  have e2 : |(3 : ℝ)| = 3 := abs_of_pos (by norm_num)
  simp only [CRFModule.forward, CRFModule.init, h1 i, h2 i, neg_zero,
    zero_div, zero_sub, sub_zero, Real.exp_zero, e1, e2]
  norm_num

/-- Witness for C3 on a concrete one-element shape with zero inputs. -/
theorem c3_crf_default_zero_input_witness :
    CRFModule.forward CRFModule.init (fun _ : Fin 1 => 0)
      (fun _ : Fin 1 => 0) 0 = 13.3 :=
  c3_crf_default_zero_input (fun _ : Fin 1 => 0) (fun _ : Fin 1 => 0)
    (fun _ => rfl) (fun _ => rfl) 0

theorem l2norm_norm_eq_one {c : ℕ} (v : Fin c → ℝ) (hv : v ≠ 0) :
    l2norm (norm v) = 1 := by
  have hS : 0 < ∑ i, v i ^ 2 := by
    obtain ⟨i, hi⟩ := Function.ne_iff.mp hv
    have hvi : v i ≠ 0 := by simpa using hi
    exact Finset.sum_pos' (fun j _ => sq_nonneg (v j))
      ⟨i, Finset.mem_univ i, pow_two_pos_of_ne_zero hvi⟩
  unfold norm l2norm
  have hsum : ∑ i, (v i / Real.sqrt (∑ j, v j ^ 2)) ^ 2 =
      (∑ i, v i ^ 2) / Real.sqrt (∑ j, v j ^ 2) ^ 2 := by
    simp only [div_pow]
    rw [← Finset.sum_div]
  rw [hsum, Real.sq_sqrt hS.le, div_self (ne_of_gt hS), Real.sqrt_one]

/-- C4: in `get_net_fd` the pairwise feature correlation `fd` is the
dot-product correlation of the per-vector L2-normalized sampled feature
vectors (which have unit L2 norm), while the label correlation `ld` is the
dot-product correlation of the raw sampled one-hot label vectors with no
normalization applied. -/
theorem c4_get_net_fd_normalization {k1 k2 c cl : ℕ}
    (featS1 : Fin k1 → (Fin c → ℝ)) (featS2 : Fin k2 → (Fin c → ℝ))
    (labS1 : Fin k1 → (Fin cl → ℝ)) (labS2 : Fin k2 → (Fin cl → ℝ))
    (i : Fin k1) (j : Fin k2) (h1 : featS1 i ≠ 0) (h2 : featS2 j ≠ 0) :
    (get_net_fd featS1 featS2 labS1 labS2).2 i j =
        dot (norm (featS1 i)) (norm (featS2 j)) ∧
      l2norm (norm (featS1 i)) = 1 ∧ l2norm (norm (featS2 j)) = 1 ∧
      (get_net_fd featS1 featS2 labS1 labS2).1 i j =
        dot (labS1 i) (labS2 j) :=
  ⟨rfl, l2norm_norm_eq_one _ h1, l2norm_norm_eq_one _ h2, rfl⟩

/-- Witness for C4 at concrete sampled vector sets. -/
theorem c4_get_net_fd_normalization_witness :
    (get_net_fd (fun _ : Fin 1 => (![1, 0] : Fin 2 → ℝ))
          (fun _ : Fin 1 => (![0, 1] : Fin 2 → ℝ))
          (fun _ : Fin 1 => (![1] : Fin 1 → ℝ))
          (fun _ : Fin 1 => (![1] : Fin 1 → ℝ))).2 0 0 =
        dot (norm (![1, 0] : Fin 2 → ℝ)) (norm (![0, 1] : Fin 2 → ℝ)) ∧
      l2norm (norm (![1, 0] : Fin 2 → ℝ)) = 1 ∧
      l2norm (norm (![0, 1] : Fin 2 → ℝ)) = 1 ∧
      (get_net_fd (fun _ : Fin 1 => (![1, 0] : Fin 2 → ℝ))
          (fun _ : Fin 1 => (![0, 1] : Fin 2 → ℝ))
          (fun _ : Fin 1 => (![1] : Fin 1 → ℝ))
          (fun _ : Fin 1 => (![1] : Fin 1 → ℝ))).1 0 0 =
        dot (![1] : Fin 1 → ℝ) (![1] : Fin 1 → ℝ) :=
  c4_get_net_fd_normalization _ _ _ _ 0 0
    (by
      intro h
      have h0 := congrFun h 0
      simp at h0)
    (by
      intro h
      have h0 := congrFun h 1
      simp at h0)

/-- C8: in `plot_cm` the count histogram is divided by its per-column sums
clamped below at 1; the clamped divisor is always positive (no division by
zero for any histogram), and a column whose counts sum to zero is all
zeros in the normalized matrix, never NaN. -/
theorem c8_confusion_matrix_clamped_division {n : ℕ}
    (hist : Fin n → Fin n → ℕ) (j : Fin n) (hz : colSum hist j = 0) :
    (∀ j2 : Fin n, 0 < max ((colSum hist j2 : ℚ)) 1) ∧
      ∀ i, normalizedCM hist i j = 0 := by
  constructor
  · intro j2
    exact lt_of_lt_of_le one_pos (le_max_right _ 1)
  · intro i
    have hzero : hist i j = 0 :=
      (Finset.sum_eq_zero_iff.mp hz) i (Finset.mem_univ i)
    unfold normalizedCM
    rw [hzero]
    simp

/-- Witness for C8 at a concrete 2×2 histogram whose second column sums to
zero. -/
theorem c8_confusion_matrix_clamped_division_witness :
    (∀ j2 : Fin 2, 0 <
        max ((colSum ((fun _ j => if j = 0 then 1 else 0) :
          Fin 2 → Fin 2 → ℕ) j2 : ℚ)) 1) ∧
      ∀ i, normalizedCM ((fun _ j => if j = 0 then 1 else 0) :
        Fin 2 → Fin 2 → ℕ) i 1 = 0 :=
  c8_confusion_matrix_clamped_division
    ((fun _ j => if j = 0 then 1 else 0) : Fin 2 → Fin 2 → ℕ) 1 (by decide)

/-- C9: the dataset-splitting script is deterministic — its observable
assignment (the hash-prefixed link names placed in train, val and test) is
a pure function of the globbed file listing and the environment's fixed
deterministic primitives (the PRNG seeded with the timestamp of the
constant date 2022-12-18 18:00, sha256, and path name extraction), so two
runs over the same listing produce the same shuffled order and assign the
same files under the same link names. -/
theorem c9_create_dataset_deterministic (env : SplitEnv)
    (files1 files2 : List String) (h : files1 = files2) :
    createDatasetRun env files1 = createDatasetRun env files2 := by
  rw [h]

/-- Witness for C9: two runs in a concrete environment over the same
listing. -/
theorem c9_create_dataset_deterministic_witness :
    createDatasetRun ⟨0, fun _ l => l, id, id, id⟩ ["a.png"] =
      createDatasetRun ⟨0, fun _ l => l, id, id, id⟩ ["a.png"] :=
  c9_create_dataset_deterministic ⟨0, fun _ l => l, id, id, id⟩
    ["a.png"] ["a.png"] rfl

/-- C10: `prep_fd` is not pure — its in-place ops rewrite the argument's
storage with the normalized values (there is an input whose storage after
the call differs from the input) — so after the plotting phase of
`validation_epoch_end` each accumulated correlation buffer in
`all_outputs` holds the min-max-normalized values rather than the raw
correlations, while `ld` is untouched; any later reader of the
accumulation buffers observes the modified data. -/
theorem c10_prep_fd_mutates_buffers (ao : ValOutput (List ℚ)) :
    plotPhase ao = ⟨prep_fd ao.dino_fd, prep_fd ao.stego_fd,
        prep_fd ao.moco_fd, prep_fd ao.crf_fd, ao.ld⟩ ∧
      ∃ l : List ℚ, (prep_fd_state l).2 ≠ l := by
  refine ⟨rfl, ⟨[0, 2], ?_⟩⟩
  have hmin : listMin [(0 : ℚ), 2] = 0 := by
    norm_num [listMin, min_def]
  have hstate : (prep_fd_state [(0 : ℚ), 2]).2 = [0, 1] := by
    show ([(0 : ℚ), 2].map (fun x => x - listMin [(0 : ℚ), 2])).map
        (fun x => x / listMax ([(0 : ℚ), 2].map
          (fun x => x - listMin [(0 : ℚ), 2]))) = [0, 1]
    rw [hmin]
    norm_num [listMax, max_def]
  rw [hstate]
  intro h
  simp at h

/-- C1: evaluating `validation_step` on a freshly `__init__`-ed
`LitRecalibrator` fails with an `AttributeError` on `self.dino` (lines
110–112 leave `dino` and `crf` unset), for every batch — it never reaches
the return of the five-entry mapping; had `__init__` assigned `dino` and
`crf` as the commented-out lines intend, the step would return the mapping
with exactly the five entries dino_fd, stego_fd, moco_fd, crf_fd, ld. -/
theorem c1_validation_step_attribute_error {T C : Type} (n : ℕ)
    (moco : T → T × T) (batch : Batch T) (coords1 coords2 : C)
    (getCrfFd : CRFModule → T → C → C → T)
    (netFd : T → T → T → T → C → C → T × T) :
    LitRecalibrator.validationStep (LitRecalibrator.initState n moco)
        batch coords1 coords2 getCrfFd netFd =
      Except.error "AttributeError: dino" ∧
    ∀ (dino : T → T × T) (crf : CRFModule),
      LitRecalibrator.validationStep
          (⟨n, moco, some dino, some crf⟩ : LitRecalibrator T)
          batch coords1 coords2 getCrfFd netFd =
        Except.ok ⟨(netFd (dino batch.img).1 (dino batch.img).1
              batch.label batch.label coords1 coords2).2,
          (netFd (dino batch.img).2 (dino batch.img).2
              batch.label batch.label coords1 coords2).2,
          (netFd (moco batch.img).1 (moco batch.img).1
              batch.label batch.label coords1 coords2).2,
          getCrfFd crf batch.img coords1 coords2,
          (netFd (moco batch.img).1 (moco batch.img).1
              batch.label batch.label coords1 coords2).1⟩ :=
  ⟨rfl, fun _ _ => rfl⟩

end STEGO

